import Mathlib

/-!
Verification of the phase-scheduling and timer core of the
leetcode-ai-tutor extension.  The definitions below are a shallow
embedding of timer.js, the background message handlers, the newtab page
state machine and the logger's weekly-report aggregation.  Timestamps
are integer milliseconds since the epoch; durations recorded in the log
are exact rationals (the JS code divides millisecond differences by
1000).
-/

namespace Tutor

/-- Record stored in the ambient sessionStorage slot by
recordPhaseStart (timer.js): problem URL, phase name, start time (ms). -/
structure PhaseRecord where
  problemUrl : String
  phase : String
  startTime : Int
  deriving DecidableEq, Repr

/-- Record returned by completeCurrentPhase (timer.js): the slot record
extended with an end time and the derived duration in seconds. -/
structure CompletedRecord where
  problemUrl : String
  phase : String
  startTime : Int
  endTime : Int
  duration : Rat
  deriving DecidableEq, Repr

/-- One entry of the persistent history log, as written by
storage.logPhase: timestamp of the write, problem URL, phase, duration
in seconds, start and end times. -/
structure LogEntry where
  timestamp : Int
  problemUrl : String
  phase : String
  duration : Rat
  start : Int
  endTime : Int
  deriving DecidableEq, Repr

/-- The extension configuration, restricted to what the handlers read:
the per-phase durations in seconds (config.phaseDurations). -/
structure Config where
  phaseDurations : List (String × Int)
  deriving DecidableEq, Repr

/-- Property lookup config.phaseDurations[phase]: none models the JS
value undefined. -/
def lookupDuration (config : Config) (phase : String) : Option Int :=
  (config.phaseDurations.find? (fun e => e.1 == phase)).map (fun e => e.2)

/-- Combined mutable state of the background page: the chrome.alarms
table (name, scheduledTime in ms; names are unique), the sessionStorage
currentPhase slot, the persisted logs array, and the problem index. -/
structure SysState where
  alarms : List (String × Int)
  currentPhase : Option PhaseRecord
  logs : List LogEntry
  currentIndex : Nat
  deriving DecidableEq, Repr

/-- chrome.alarms.clear name: drop every alarm with that name. -/
def alarmsClear (alarms : List (String × Int)) (name : String) : List (String × Int) :=
  alarms.filter (fun a => a.1 != name)

/-- timer.js startPhaseTimer: clear any alarm with this phase name and
create a fresh one-shot alarm due durationSec seconds from now.
Returns the new alarm table together with the timer object fields
(phase, startTime, durationSec). -/
def startPhaseTimer (alarms : List (String × Int)) (phaseName : String) (durationSec now : Int) :
    List (String × Int) × (String × Int × Int) :=
  ((phaseName, now + durationSec * 1000) :: alarmsClear alarms phaseName,
   (phaseName, now, durationSec))

/-- timer.js stopPhaseTimer: chrome.alarms.clear for the phase name.
Returns the new alarm table and whether an alarm was actually cleared. -/
def stopPhaseTimer (alarms : List (String × Int)) (phaseName : String) :
    List (String × Int) × Bool :=
  (alarmsClear alarms phaseName, (alarms.find? (fun a => a.1 == phaseName)).isSome)

/-- timer.js getRemainingTime: 0 when no alarm with this name exists,
otherwise max 0 (floor ((scheduledTime - now) / 1000)). -/
def getRemainingTime (alarms : List (String × Int)) (phaseName : String) (now : Int) : Int :=
  match alarms.find? (fun a => a.1 == phaseName) with
  | none => 0
  | some a => max 0 (Int.fdiv (a.2 - now) 1000)

/-- timer.js completeCurrentPhase: read the slot; when empty return
null, otherwise stamp the end time, derive the duration in seconds,
clear the slot and return the completed record. -/
def completeCurrentPhase (s : SysState) (now : Int) : SysState × Option CompletedRecord :=
  match s.currentPhase with
  | none => (s, none)
  | some r =>
      ({ s with currentPhase := none },
       some { problemUrl := r.problemUrl, phase := r.phase, startTime := r.startTime,
              endTime := now, duration := ((now - r.startTime : Int) : Rat) / 1000 })

/-- Log entry built by storage.logPhase. -/
def mkLogEntry (problemUrl phase : String) (startMs endMs now : Int) : LogEntry :=
  { timestamp := now, problemUrl := problemUrl, phase := phase,
    duration := ((endMs - startMs : Int) : Rat) / 1000,
    start := startMs, endTime := endMs }

/-- storage.logPhase: push one entry onto the persisted logs array. -/
def logPhase (s : SysState) (problemUrl phase : String) (startMs endMs now : Int) : SysState :=
  { s with logs := s.logs ++ [mkLogEntry problemUrl phase startMs endMs now] }

/-- Result of the START_PHASE message handler. -/
inductive StartResult where
  | ok (phase : String) (durationSec : Int) (startTime : Int)
  | error (msg : String)
  deriving DecidableEq, Repr

/-- background.js handleStartPhase: look up the configured duration for
the phase; a missing or zero entry is falsy in JS and raises the
invalid-phase error; otherwise start the phase timer and record the
phase start in the session slot. -/
def handleStartPhase (config : Config) (s : SysState) (phase problemUrl : String) (now : Int) :
    SysState × StartResult :=
  match lookupDuration config phase with
  | none => (s, StartResult.error ("Invalid phase: " ++ phase))
  | some durationSec =>
      if durationSec = 0 then (s, StartResult.error ("Invalid phase: " ++ phase))
      else
        ({ s with alarms := (startPhaseTimer s.alarms phase durationSec now).1,
                  currentPhase := some { problemUrl := problemUrl, phase := phase, startTime := now } },
         StartResult.ok phase durationSec now)

/-- Result of the COMPLETE_PHASE message handler. -/
inductive CompleteResult where
  | ok (phase : String) (duration : Rat)
  | error (msg : String)
  deriving DecidableEq, Repr

/-- background.js handleCompletePhase: stop the phase timer, complete
the current phase from the session slot; when the slot was empty this
throws the no-active-phase error; otherwise log the phase timing with
end time new Date(), i.e. the wall clock now. -/
def handleCompletePhase (s : SysState) (phase problemUrl : String) (now : Int) :
    SysState × CompleteResult :=
  match completeCurrentPhase { s with alarms := (stopPhaseTimer s.alarms phase).1 } now with
  | (s2, none) => (s2, CompleteResult.error "No active phase found")
  | (s2, some record) =>
      (logPhase s2 problemUrl phase record.startTime now now,
       CompleteResult.ok phase record.duration)

/-- background.js handlePhaseTimeout: when the session slot is empty or
names a different phase, return without doing anything; otherwise
complete the current phase and log it with end time new Date(), i.e.
the wall clock time at which the callback runs. -/
def handlePhaseTimeout (s : SysState) (phase : String) (now : Int) : SysState :=
  match s.currentPhase with
  | none => s
  | some cur =>
      if cur.phase = phase then
        match completeCurrentPhase s now with
        | (s1, none) => s1
        | (s1, some record) => logPhase s1 record.problemUrl phase record.startTime now now
      else s

/-- background.js chrome.alarms.onAlarm listener: the quiz reminder
alarm goes to the quiz check (which writes nothing we model), every
other name is treated as a phase timeout. -/
def onAlarm (s : SysState) (name : String) (now : Int) : SysState :=
  if name = "quizReminderCheck" then s else handlePhaseTimeout s name now

/-- Delivery of a one-shot chrome alarm: it can only fire while still
pending; firing removes it from the alarm table and runs the onAlarm
listener. -/
def fireAlarm (s : SysState) (name : String) (now : Int) : SysState :=
  match s.alarms.find? (fun a => a.1 == name) with
  | none => s
  | some _ => onAlarm { s with alarms := alarmsClear s.alarms name } name now

/-- background.js handleSkipProblem: advance the problem index modulo
the problem count; nothing else is touched. -/
def handleSkipProblem (s : SysState) (numProblems : Nat) : SysState :=
  { s with currentIndex := (s.currentIndex + 1) % numProblems }

/-- newtab.js phase order. -/
def phases : List String := ["understand", "pseudocode", "implement", "optimize"]

/-- newtab.js getNextPhase: indexOf over the phase list (yielding -1
for an unknown phase, exactly as Array.prototype.indexOf does), then
the next element when one exists. -/
def getNextPhase (currentPhase : String) : Option String :=
  let idx : Int :=
    match phases.indexOf? currentPhase with
    | some i => (i : Int)
    | none => -1
  if idx < (phases.length : Int) - 1 then phases.get? (idx + 1).toNat else none

/-- Sequence state owned by the newtab page: the current phase and the
list of completed phases. -/
structure UIState where
  currentPhase : String
  completedPhases : List String
  deriving DecidableEq, Repr

/-- newtab.js startPhase: the page sets its current phase before
sending START_PHASE; on an error reply it only alerts, the phase
variable stays set. -/
def uiStartPhase (config : Config) (sys : SysState) (ui : UIState) (phase problemUrl : String)
    (now : Int) : SysState × UIState :=
  ((handleStartPhase config sys phase problemUrl now).1, { ui with currentPhase := phase })

/-- newtab.js completePhase: send COMPLETE_PHASE for the current phase;
on error alert and change nothing; on success push the phase onto the
completed list and start the next phase when one exists. -/
def uiCompletePhase (config : Config) (sys : SysState) (ui : UIState) (problemUrl : String)
    (now : Int) : SysState × UIState × CompleteResult :=
  match handleCompletePhase sys ui.currentPhase problemUrl now with
  | (sys1, CompleteResult.error msg) => (sys1, ui, CompleteResult.error msg)
  | (sys1, CompleteResult.ok p d) =>
      match getNextPhase ui.currentPhase with
      | some next =>
          let step := uiStartPhase config sys1
            { ui with completedPhases := ui.completedPhases ++ [ui.currentPhase] } next problemUrl now
          (step.1, step.2, CompleteResult.ok p d)
      | none =>
          (sys1, { ui with completedPhases := ui.completedPhases ++ [ui.currentPhase] },
           CompleteResult.ok p d)

/-- newtab.js resetState: back to the understand phase with an empty
completed list. -/
def resetState : UIState :=
  { currentPhase := "understand", completedPhases := [] }

/-- newtab.js skipProblem pipeline: SKIP_PROBLEM advances the problem
index in the background, then the page resets its state and starts the
understand phase for the next problem. -/
def uiSkipProblem (config : Config) (sys : SysState) (numProblems : Nat)
    (newProblemUrl : String) (now : Int) : SysState × UIState :=
  uiStartPhase config (handleSkipProblem sys numProblems) resetState "understand" newProblemUrl now

/-- newtab.js handlePhaseTimeout (the PHASE_TIMEOUT message listener):
it only shows a message; no state variable is touched. -/
def uiOnPhaseTimeout (ui : UIState) : UIState :=
  ui

/-- Full delivery of a phase timeout: the alarm fires in the background
page and the PHASE_TIMEOUT message reaches the newtab page. -/
def timeoutStep (sys : SysState) (ui : UIState) (name : String) (now : Int) :
    SysState × UIState :=
  (fireAlarm sys name now, uiOnPhaseTimeout ui)

/-- The default phase catalog of the extension (storage.js
getDefaultConfig). -/
def stdConfig : Config :=
  { phaseDurations :=
      [("understand", 300), ("pseudocode", 600), ("implement", 900), ("optimize", 600)] }

/-! ### Logger aggregation (logger.js generateWeeklyReport) -/

/-- Push a log entry onto phases[log.phase], creating the key at the
end on first appearance, exactly as JS object insertion does. -/
def addToPhases (pl : List (String × List LogEntry)) (l : LogEntry) :
    List (String × List LogEntry) :=
  match pl with
  | [] => [(l.phase, [l])]
  | (p, ls) :: rest =>
      if p = l.phase then (p, ls ++ [l]) :: rest
      else (p, ls) :: addToPhases rest l

/-- Per-problem aggregation entry of generateWeeklyReport's problemMap. -/
structure ProblemAgg where
  url : String
  phaseLogs : List (String × List LogEntry)
  deriving DecidableEq, Repr

/-- Fold step of generateWeeklyReport: route the log entry to
problemMap[log.problemUrl].phases[log.phase]. -/
def addLog (m : List ProblemAgg) (l : LogEntry) : List ProblemAgg :=
  match m with
  | [] => [{ url := l.problemUrl, phaseLogs := [(l.phase, [l])] }]
  | p :: rest =>
      if p.url = l.problemUrl then { p with phaseLogs := addToPhases p.phaseLogs l } :: rest
      else p :: addLog rest l

/-- generateWeeklyReport's grouping pass: a pure fold over the logs. -/
def buildProblemMap (logs : List LogEntry) : List ProblemAgg :=
  logs.foldl addLog []

/-- logs.reduce((sum, log) => sum + log.duration, 0). -/
def totalDuration (entries : List LogEntry) : Rat :=
  entries.foldl (fun sum l => sum + l.duration) 0

/-- The record list stored under a phase key, empty when the key is
absent. -/
def phaseListLookup (pl : List (String × List LogEntry)) (phase : String) : List LogEntry :=
  match pl.find? (fun e => e.1 == phase) with
  | none => []
  | some e => e.2

/-- The list of records grouped under a given problem and phase. -/
def lookupPhaseLogs (m : List ProblemAgg) (url phase : String) : List LogEntry :=
  match m.find? (fun p => p.url == url) with
  | none => []
  | some p => phaseListLookup p.phaseLogs phase

/-- The per-subject per-phase total duration reported by
generateWeeklyReport. -/
def aggregateBySubject (logs : List LogEntry) (url phase : String) : Rat :=
  totalDuration (lookupPhaseLogs (buildProblemMap logs) url phase)

/-! ### Interval lifecycle events -/

/-- The two ways an active interval can end: a manual COMPLETE_PHASE
message or the firing of the phase alarm. -/
inductive Ev where
  | stop
  | timeout
  deriving DecidableEq, Repr

/-- Run one lifecycle event (with its wall-clock time) against the
background state. -/
def runEvent (phase problemUrl : String) (s : SysState) (e : Ev × Int) : SysState :=
  match e.1 with
  | Ev.stop => (handleCompletePhase s phase problemUrl e.2).1
  | Ev.timeout => fireAlarm s phase e.2

/-- Run a sequence of lifecycle events in delivery order. -/
def runEvents (phase problemUrl : String) (s : SysState) (events : List (Ev × Int)) : SysState :=
  events.foldl (runEvent phase problemUrl) s

/-! ### Concrete states used to evaluate the definitions -/

/-- A state in which the understand phase of problem p started at time
0 with a 300 second alarm pending. -/
def c3State : SysState :=
  { alarms := [("understand", 300000)],
    currentPhase := some { problemUrl := "p", phase := "understand", startTime := 0 },
    logs := [], currentIndex := 0 }

/-- A state whose sequence cursor sits on the understand phase with
nothing completed. -/
def c5State : SysState :=
  { alarms := [],
    currentPhase := some { problemUrl := "p", phase := "understand", startTime := 0 },
    logs := [], currentIndex := 0 }

/-- A state in which problem pA is mid implement phase with its alarm
still pending. -/
def c8State : SysState :=
  { alarms := [("implement", 900000)],
    currentPhase := some { problemUrl := "pA", phase := "implement", startTime := 0 },
    logs := [], currentIndex := 0 }

/-- An idle state: no alarms, no active phase, empty log. -/
def idleState : SysState :=
  { alarms := [], currentPhase := none, logs := [], currentIndex := 0 }

/-- A configuration whose understand phase has a negative duration, as
the options page accepts (parseInt of a negative field value). -/
def negConfig : Config :=
  { phaseDurations := [("understand", -5)] }

/-- A configuration whose understand phase has duration zero. -/
def zeroConfig : Config :=
  { phaseDurations := [("understand", 0)] }

/-! ### Basic facts about the alarm table -/

theorem find?_alarmsClear_self (A : List (String × Int)) (n : String) :
    (alarmsClear A n).find? (fun a => a.1 == n) = none := by
  rw [List.find?_eq_none]
  intro x hx
  have h2 := (List.mem_filter.mp hx).2
  simp only [bne_iff_ne, ne_eq] at h2
  simp [h2]

theorem find?_alarmsClear_ne (A : List (String × Int)) (m n : String) (h : m ≠ n) :
    (alarmsClear A n).find? (fun a => a.1 == m) = A.find? (fun a => a.1 == m) := by
  induction A with
  | nil => rfl
  | cons x rest ih =>
      by_cases hx : x.1 = n
      · have hcl : alarmsClear (x :: rest) n = alarmsClear rest n := by
          simp [alarmsClear, List.filter_cons, hx]
        have hm : ¬ x.1 = m := by
          rw [hx]
          exact fun hh => h hh.symm
        rw [hcl, ih]
        simp [hm]
      · have hcl : alarmsClear (x :: rest) n = x :: alarmsClear rest n := by
          simp [alarmsClear, List.filter_cons, hx]
        rw [hcl]
        by_cases hxm : x.1 = m
        · simp [hxm]
        · simp [hxm, ih]

theorem alarmsClear_alarmsClear (A : List (String × Int)) (n : String) :
    alarmsClear (alarmsClear A n) n = alarmsClear A n := by
  simp [alarmsClear, List.filter_filter]

/-! ### Handler postconditions -/

theorem handleStartPhase_of_none (config : Config) (s : SysState) (phase url : String)
    (now : Int) (hd : lookupDuration config phase = none) :
    handleStartPhase config s phase url now
      = (s, StartResult.error ("Invalid phase: " ++ phase)) := by
  simp [handleStartPhase, hd]

theorem handleStartPhase_of_zero (config : Config) (s : SysState) (phase url : String)
    (now : Int) (hd : lookupDuration config phase = some 0) :
    handleStartPhase config s phase url now
      = (s, StartResult.error ("Invalid phase: " ++ phase)) := by
  simp [handleStartPhase, hd]

theorem handleStartPhase_of_some (config : Config) (s : SysState) (phase url : String)
    (d now : Int) (hd : lookupDuration config phase = some d) (hd0 : d ≠ 0) :
    handleStartPhase config s phase url now
      = ({ s with alarms := (phase, now + d * 1000) :: alarmsClear s.alarms phase,
                  currentPhase := some { problemUrl := url, phase := phase, startTime := now } },
         StartResult.ok phase d now) := by
  simp [handleStartPhase, hd, hd0, startPhaseTimer]

theorem handleStartPhase_logs (config : Config) (s : SysState) (phase url : String)
    (now : Int) :
    ((handleStartPhase config s phase url now).1).logs = s.logs := by
  cases hd : lookupDuration config phase with
  | none => simp [handleStartPhase, hd]
  | some d => by_cases h0 : d = 0 <;> simp [handleStartPhase, hd, h0, startPhaseTimer]

theorem handleCompletePhase_of_none (s : SysState) (phase url : String) (t : Int)
    (h : s.currentPhase = none) :
    handleCompletePhase s phase url t
      = ({ s with alarms := alarmsClear s.alarms phase },
         CompleteResult.error "No active phase found") := by
  simp [handleCompletePhase, completeCurrentPhase, stopPhaseTimer, h]

theorem handleCompletePhase_of_some (s : SysState) (r : PhaseRecord) (phase url : String)
    (t : Int) (h : s.currentPhase = some r) :
    handleCompletePhase s phase url t
      = ({ s with alarms := alarmsClear s.alarms phase, currentPhase := none,
                  logs := s.logs ++ [mkLogEntry url phase r.startTime t t] },
         CompleteResult.ok phase (((t - r.startTime : Int) : Rat) / 1000)) := by
  simp [handleCompletePhase, completeCurrentPhase, stopPhaseTimer, logPhase, mkLogEntry, h]

theorem handlePhaseTimeout_of_none (s : SysState) (name : String) (t : Int)
    (h : s.currentPhase = none) :
    handlePhaseTimeout s name t = s := by
  simp [handlePhaseTimeout, h]

theorem handlePhaseTimeout_of_mismatch (s : SysState) (r : PhaseRecord) (name : String)
    (t : Int) (h : s.currentPhase = some r) (hne : ¬ r.phase = name) :
    handlePhaseTimeout s name t = s := by
  simp [handlePhaseTimeout, h, hne]

theorem handlePhaseTimeout_of_match (s : SysState) (r : PhaseRecord) (name : String)
    (t : Int) (h : s.currentPhase = some r) (heq : r.phase = name) :
    handlePhaseTimeout s name t
      = { s with currentPhase := none,
                 logs := s.logs ++ [mkLogEntry r.problemUrl name r.startTime t t] } := by
  simp [handlePhaseTimeout, completeCurrentPhase, logPhase, mkLogEntry, h, heq]

theorem fireAlarm_of_not_pending (s : SysState) (name : String) (t : Int)
    (h : s.alarms.find? (fun a => a.1 == name) = none) :
    fireAlarm s name t = s := by
  simp [fireAlarm, h]

theorem fireAlarm_of_pending (s : SysState) (name : String) (t : Int) (x : String × Int)
    (ha : s.alarms.find? (fun a => a.1 == name) = some x)
    (hq : ¬ name = "quizReminderCheck") :
    fireAlarm s name t
      = handlePhaseTimeout { s with alarms := alarmsClear s.alarms name } name t := by
  simp [fireAlarm, ha, onAlarm, hq]

theorem fireAlarm_of_pending_any (s : SysState) (name : String) (t : Int) (x : String × Int)
    (ha : s.alarms.find? (fun a => a.1 == name) = some x) :
    fireAlarm s name t = onAlarm { s with alarms := alarmsClear s.alarms name } name t := by
  simp [fireAlarm, ha]

/-! ### Lifecycle event lemmas -/

theorem runEvent_done (phase url : String) (base : List LogEntry) (B : SysState)
    (e : Ev × Int)
    (h1 : B.currentPhase = none)
    (h2 : B.alarms.find? (fun a => a.1 == phase) = none)
    (h3 : B.logs = base) :
    (runEvent phase url B e).currentPhase = none
    ∧ (runEvent phase url B e).alarms.find? (fun a => a.1 == phase) = none
    ∧ (runEvent phase url B e).logs = base := by
  obtain ⟨ev, t⟩ := e
  cases ev with
  | stop =>
      simp only [runEvent, handleCompletePhase_of_none B phase url t h1]
      exact ⟨h1, find?_alarmsClear_self B.alarms phase, h3⟩
  | timeout =>
      simp only [runEvent, fireAlarm_of_not_pending B phase t h2]
      exact ⟨h1, h2, h3⟩

theorem runEvents_done (phase url : String) (base : List LogEntry) :
    ∀ (events : List (Ev × Int)) (B : SysState),
      B.currentPhase = none →
      B.alarms.find? (fun a => a.1 == phase) = none →
      B.logs = base →
      (runEvents phase url B events).logs = base := by
  intro events
  induction events with
  | nil => intro B _ _ h3; exact h3
  | cons e rest ih =>
      intro B h1 h2 h3
      have hd := runEvent_done phase url base B e h1 h2 h3
      exact ih (runEvent phase url B e) hd.1 hd.2.1 hd.2.2

theorem runEvent_after_start (config : Config) (s0 : SysState) (phase url : String)
    (d now : Int) (e : Ev × Int)
    (hd : lookupDuration config phase = some d) (hd0 : d ≠ 0)
    (hq : ¬ phase = "quizReminderCheck") :
    (runEvent phase url ((handleStartPhase config s0 phase url now).1) e).currentPhase = none
    ∧ (runEvent phase url ((handleStartPhase config s0 phase url now).1) e).alarms.find?
        (fun a => a.1 == phase) = none
    ∧ (runEvent phase url ((handleStartPhase config s0 phase url now).1) e).logs
        = s0.logs ++ [mkLogEntry url phase now e.2 e.2] := by
  obtain ⟨ev, t⟩ := e
  rw [handleStartPhase_of_some config s0 phase url d now hd hd0]
  cases ev with
  | stop =>
      simp only [runEvent]
      rw [handleCompletePhase_of_some _ { problemUrl := url, phase := phase, startTime := now }
        phase url t rfl]
      exact ⟨rfl, find?_alarmsClear_self _ phase, rfl⟩
  | timeout =>
      simp only [runEvent]
      have ha : (({ s0 with
            alarms := (phase, now + d * 1000) :: alarmsClear s0.alarms phase,
            currentPhase := some { problemUrl := url, phase := phase, startTime := now } } :
          SysState)).alarms.find? (fun a => a.1 == phase) = some (phase, now + d * 1000) := by
        simp
      rw [fireAlarm_of_pending _ phase t _ ha hq]
      rw [handlePhaseTimeout_of_match _ { problemUrl := url, phase := phase, startTime := now }
        phase t rfl rfl]
      exact ⟨rfl, find?_alarmsClear_self _ phase, rfl⟩

/-! ### Claim theorems -/

/-- C1: for one successful start of a phase followed by any interleaving
of at most one manual COMPLETE_PHASE and at most one timeout firing (at
least one of the two happening), exactly one record is appended to the
history log; in particular a manual completion arriving after the
timeout already fired appends no second record. -/
theorem exactly_once_completion (config : Config) (s0 : SysState) (phase problemUrl : String)
    (d now : Int) (events : List (Ev × Int))
    (hd : lookupDuration config phase = some d) (hd0 : d ≠ 0)
    (hq : ¬ phase = "quizReminderCheck")
    (hne : events ≠ [])
    (_hstop : (events.map Prod.fst).count Ev.stop ≤ 1)
    (_hto : (events.map Prod.fst).count Ev.timeout ≤ 1) :
    ∃ entry : LogEntry,
      (runEvents phase problemUrl ((handleStartPhase config s0 phase problemUrl now).1)
        events).logs = s0.logs ++ [entry] := by
  match events with
  | [] => exact absurd rfl hne
  | e :: rest =>
      refine ⟨mkLogEntry problemUrl phase now e.2 e.2, ?_⟩
      have h1 := runEvent_after_start config s0 phase problemUrl d now e hd hd0 hq
      exact runEvents_done phase problemUrl
        (s0.logs ++ [mkLogEntry problemUrl phase now e.2 e.2]) rest _ h1.1 h1.2.1 h1.2.2

/-- Witness for C1: a concrete lifecycle in which the understand phase
times out at 300 s and a manual completion arrives one second later;
exactly one record is appended. -/
theorem exactly_once_completion_witness :
    ∃ entry : LogEntry,
      (runEvents "understand" "p" ((handleStartPhase stdConfig idleState "understand" "p" 0).1)
        [(Ev.timeout, 300000), (Ev.stop, 301000)]).logs = idleState.logs ++ [entry] :=
  exactly_once_completion stdConfig idleState "understand" "p" 300 0
    [(Ev.timeout, 300000), (Ev.stop, 301000)]
    (by decide) (by decide) (by decide) (by decide) (by decide) (by decide)

/-- C2: when the alarm for the currently active phase fires, the
background appends the completed record for that phase, while the page
sequence state (current phase and completed set) is untouched, the
problem index is untouched, and no new alarm is created (the alarm
table only loses the fired alarm), so no next phase is started. -/
theorem timeout_appends_without_advancing (sys : SysState) (ui : UIState) (name : String)
    (now : Int) (r : PhaseRecord) (x : String × Int)
    (ha : sys.alarms.find? (fun a => a.1 == name) = some x)
    (hq : ¬ name = "quizReminderCheck")
    (hs : sys.currentPhase = some r) (hp : r.phase = name) :
    (timeoutStep sys ui name now).1.logs
        = sys.logs ++ [mkLogEntry r.problemUrl name r.startTime now now]
    ∧ (timeoutStep sys ui name now).2 = ui
    ∧ (timeoutStep sys ui name now).1.alarms = alarmsClear sys.alarms name
    ∧ (timeoutStep sys ui name now).1.currentIndex = sys.currentIndex := by
  have h1 := fireAlarm_of_pending sys name now x ha hq
  have h2 := handlePhaseTimeout_of_match
    { sys with alarms := alarmsClear sys.alarms name } r name now hs hp
  simp [timeoutStep, uiOnPhaseTimeout, h1, h2]

/-- Witness for C2: the understand phase of problem p times out at
300 s; one record appears and the page state is unchanged. -/
theorem timeout_appends_without_advancing_witness :
    (timeoutStep c3State { currentPhase := "understand", completedPhases := [] }
        "understand" 300000).1.logs
      = c3State.logs ++ [mkLogEntry "p" "understand" 0 300000 300000]
    ∧ (timeoutStep c3State { currentPhase := "understand", completedPhases := [] }
        "understand" 300000).2
      = { currentPhase := "understand", completedPhases := [] }
    ∧ (timeoutStep c3State { currentPhase := "understand", completedPhases := [] }
        "understand" 300000).1.alarms = alarmsClear c3State.alarms "understand"
    ∧ (timeoutStep c3State { currentPhase := "understand", completedPhases := [] }
        "understand" 300000).1.currentIndex = c3State.currentIndex :=
  timeout_appends_without_advancing c3State
    { currentPhase := "understand", completedPhases := [] } "understand" 300000
    { problemUrl := "p", phase := "understand", startTime := 0 } ("understand", 300000)
    (by decide) (by decide) (by decide) (by decide)

/-- C3 counterexample: with the understand phase started at time 0 and
configured for 300 s, the timeout callback runs at wall-clock 305 s and
the recorded end time is 305000 ms, not start + durationSeconds =
300000 ms, and the derived duration is 305 s, not the configured
300 s.  So the recorded end time is the wall-clock time of the
callback, contradicting the claim. -/
theorem timeout_wall_clock_counterexample :
    ((fireAlarm c3State "understand" 305000).logs.map (fun l => l.endTime)) = [305000]
    ∧ ((fireAlarm c3State "understand" 305000).logs.map (fun l => l.duration)) = [(305 : Rat)]
    ∧ (305000 : Int) ≠ 0 + 300 * 1000 := by
  have ha : c3State.alarms.find? (fun a => a.1 == "understand")
      = some ("understand", 300000) := by decide
  have h1 := fireAlarm_of_pending c3State "understand" 305000 _ ha (by decide)
  have h2 := handlePhaseTimeout_of_match
    { c3State with alarms := alarmsClear c3State.alarms "understand" }
    { problemUrl := "p", phase := "understand", startTime := 0 } "understand" 305000 rfl rfl
  rw [h1, h2]
  refine ⟨rfl, ?_, by decide⟩
  simp only [mkLogEntry, c3State, List.map]
  norm_num

/-- C3 amended: for every interval ended by the timeout callback, the
recorded end time is the wall-clock time now at which the callback
runs (not start + durationSeconds), and the derived duration is
(now - start) / 1000 seconds. -/
theorem timeout_record_end_is_wall_clock (sys : SysState) (name : String) (now : Int)
    (r : PhaseRecord) (x : String × Int)
    (ha : sys.alarms.find? (fun a => a.1 == name) = some x)
    (hq : ¬ name = "quizReminderCheck")
    (hs : sys.currentPhase = some r) (hp : r.phase = name) :
    (fireAlarm sys name now).logs
        = sys.logs ++ [mkLogEntry r.problemUrl name r.startTime now now]
    ∧ (mkLogEntry r.problemUrl name r.startTime now now).endTime = now
    ∧ (mkLogEntry r.problemUrl name r.startTime now now).duration
        = ((now - r.startTime : Int) : Rat) / 1000 := by
  have h1 := fireAlarm_of_pending sys name now x ha hq
  have h2 := handlePhaseTimeout_of_match
    { sys with alarms := alarmsClear sys.alarms name } r name now hs hp
  rw [h1, h2]
  exact ⟨rfl, rfl, rfl⟩

/-- Witness for C3 amended: the concrete late callback at 305 s records
end time 305000 ms and duration 305 s. -/
theorem timeout_record_end_is_wall_clock_witness :
    (fireAlarm c3State "understand" 305000).logs
        = c3State.logs ++ [mkLogEntry "p" "understand" 0 305000 305000]
    ∧ (mkLogEntry "p" "understand" 0 305000 305000).endTime = 305000
    ∧ (mkLogEntry "p" "understand" 0 305000 305000).duration
        = ((305000 - (0 : Int) : Int) : Rat) / 1000 :=
  timeout_record_end_is_wall_clock c3State "understand" 305000
    { problemUrl := "p", phase := "understand", startTime := 0 } ("understand", 300000)
    (by decide) (by decide) (by decide) (by decide)

/-- C4 counterexample: when no alarm exists getRemainingTime returns 0,
the very value an active interval yields at its expiry instant, so the
no-active-interval case is not reported through a distinguishable
sentinel. -/
theorem remaining_no_sentinel_counterexample :
    getRemainingTime [] "understand" 5000 = 0
    ∧ getRemainingTime [("understand", 5000)] "understand" 5000 = 0 := by
  exact ⟨rfl, by decide⟩

/-- C4 amended: for an interval started at now0 with duration d the
query returns max 0 (floor ((d * 1000 - (now - now0)) / 1000)) ms-wise,
is never negative, is non-increasing in the query time, and is exactly
0 at or after the configured duration elapses; when no alarm exists it
returns 0 (not a distinguishable sentinel). -/
theorem getRemainingTime_spec (alarms : List (String × Int)) (name : String)
    (d now0 now t1 t2 : Int) (ht : t1 ≤ t2) :
    getRemainingTime ((startPhaseTimer alarms name d now0).1) name now
        = max 0 (Int.fdiv (d * 1000 - (now - now0)) 1000)
    ∧ 0 ≤ getRemainingTime ((startPhaseTimer alarms name d now0).1) name now
    ∧ getRemainingTime ((startPhaseTimer alarms name d now0).1) name t2
        ≤ getRemainingTime ((startPhaseTimer alarms name d now0).1) name t1
    ∧ (now0 + d * 1000 ≤ now →
        getRemainingTime ((startPhaseTimer alarms name d now0).1) name now = 0)
    ∧ getRemainingTime [] name now = 0 := by
  have hfind : ((startPhaseTimer alarms name d now0).1).find? (fun a => a.1 == name)
      = some (name, now0 + d * 1000) := by
    simp [startPhaseTimer]
  have hval : ∀ u : Int,
      getRemainingTime ((startPhaseTimer alarms name d now0).1) name u
        = max 0 (Int.fdiv (now0 + d * 1000 - u) 1000) := by
    intro u
    simp [getRemainingTime, hfind]
  have harg : ∀ u : Int, now0 + d * 1000 - u = d * 1000 - (u - now0) := by
    intro u
    ring
  refine ⟨?_, ?_, ?_, ?_, rfl⟩
  · rw [hval now, harg now]
  · rw [hval now]
    exact le_max_left 0 _
  · rw [hval t1, hval t2]
    apply max_le_max (le_refl (0 : Int))
    rw [Int.fdiv_eq_ediv _ (by norm_num), Int.fdiv_eq_ediv _ (by norm_num)]
    exact Int.ediv_le_ediv (by norm_num) (by omega)
  · intro hnow
    rw [hval now]
    have hle : Int.fdiv (now0 + d * 1000 - now) 1000 ≤ 0 := by
      rw [Int.fdiv_eq_ediv _ (by norm_num)]
      calc (now0 + d * 1000 - now) / 1000
          ≤ 0 / 1000 := Int.ediv_le_ediv (by norm_num) (by omega)
        _ = 0 := Int.zero_ediv 1000
    exact max_eq_left hle

/-- Witness for C4 amended: a 300 s understand interval started at
time 0, queried at 100 s and at the pair 50 s ≤ 60 s. -/
theorem getRemainingTime_spec_witness :
    getRemainingTime ((startPhaseTimer [] "understand" 300 0).1) "understand" 100000
        = max 0 (Int.fdiv (300 * 1000 - (100000 - 0)) 1000)
    ∧ 0 ≤ getRemainingTime ((startPhaseTimer [] "understand" 300 0).1) "understand" 100000
    ∧ getRemainingTime ((startPhaseTimer [] "understand" 300 0).1) "understand" 60000
        ≤ getRemainingTime ((startPhaseTimer [] "understand" 300 0).1) "understand" 50000
    ∧ ((0 : Int) + 300 * 1000 ≤ 100000 →
        getRemainingTime ((startPhaseTimer [] "understand" 300 0).1) "understand" 100000 = 0)
    ∧ getRemainingTime [] "understand" 100000 = 0 :=
  getRemainingTime_spec [] "understand" 300 0 100000 50000 60000 (by decide)

/-- C5 counterexample: with the standard catalog, current phase
understand and implement uncompleted, START_PHASE for implement
succeeds and starts its 900 s timer instead of failing with
PhaseNotReachable. -/
theorem beginPhase_ahead_succeeds_counterexample :
    (handleStartPhase stdConfig c5State "implement" "p" 1000).2
        = StartResult.ok "implement" 900 1000
    ∧ ((handleStartPhase stdConfig c5State "implement" "p" 1000).1).alarms
        = [("implement", 901000)] := by
  exact ⟨by decide, by decide⟩

/-- C5 amended: a phase with no configured duration fails with the
generic invalid-phase error and starts no timer, leaving the state
untouched; but there is no reachability check: any phase with a
nonzero configured duration is started immediately, its alarm
registered, regardless of the sequence position. -/
theorem beginPhase_validation (config : Config) (s : SysState) (phase url : String)
    (now : Int) :
    (lookupDuration config phase = none →
      handleStartPhase config s phase url now
        = (s, StartResult.error ("Invalid phase: " ++ phase)))
    ∧ (∀ d : Int, lookupDuration config phase = some d → d ≠ 0 →
      (handleStartPhase config s phase url now).2 = StartResult.ok phase d now
      ∧ ((handleStartPhase config s phase url now).1).alarms
          = (phase, now + d * 1000) :: alarmsClear s.alarms phase) := by
  constructor
  · intro hd
    exact handleStartPhase_of_none config s phase url now hd
  · intro d hd hd0
    rw [handleStartPhase_of_some config s phase url d now hd hd0]
    exact ⟨rfl, rfl⟩

/-- Witness for C5 amended: an unknown phase is rejected with no state
change, while starting implement ahead of the current understand phase
succeeds and registers its alarm. -/
theorem beginPhase_validation_witness :
    (handleStartPhase stdConfig c5State "bogus" "p" 0
        = (c5State, StartResult.error ("Invalid phase: " ++ "bogus")))
    ∧ ((handleStartPhase stdConfig c5State "implement" "p" 1000).2
        = StartResult.ok "implement" 900 1000
      ∧ ((handleStartPhase stdConfig c5State "implement" "p" 1000).1).alarms
          = ("implement", 1000 + 900 * 1000) :: alarmsClear c5State.alarms "implement") :=
  ⟨(beginPhase_validation stdConfig c5State "bogus" "p" 0).1 (by decide),
   (beginPhase_validation stdConfig c5State "implement" "p" 1000).2 900 (by decide) (by decide)⟩

/-- C6: completing a phase while the timer has no active interval
reports the no-active-phase error, appends nothing to the history log,
and leaves the page sequence state exactly as it was. -/
theorem completePhase_no_active (config : Config) (sys : SysState) (ui : UIState)
    (url : String) (now : Int) (h : sys.currentPhase = none) :
    (uiCompletePhase config sys ui url now).2.2 = CompleteResult.error "No active phase found"
    ∧ ((uiCompletePhase config sys ui url now).1).logs = sys.logs
    ∧ (uiCompletePhase config sys ui url now).2.1 = ui := by
  have h1 := handleCompletePhase_of_none sys ui.currentPhase url now h
  simp [uiCompletePhase, h1]

/-- Witness for C6: completing with an idle timer errors out and
changes neither the log nor the page state. -/
theorem completePhase_no_active_witness :
    (uiCompletePhase stdConfig idleState resetState "p" 0).2.2
        = CompleteResult.error "No active phase found"
    ∧ ((uiCompletePhase stdConfig idleState resetState "p" 0).1).logs = idleState.logs
    ∧ (uiCompletePhase stdConfig idleState resetState "p" 0).2.1 = resetState :=
  completePhase_no_active stdConfig idleState resetState "p" 0 (by decide)

/-- C7: skipping the current problem appends no record to the history
log (abandonment is unlogged) and reinitializes the page sequence
state to the first catalog phase, understand, with an empty completed
set. -/
theorem skip_unlogged_and_resets (config : Config) (sys : SysState) (n : Nat)
    (url : String) (now : Int) :
    ((uiSkipProblem config sys n url now).1).logs = sys.logs
    ∧ (uiSkipProblem config sys n url now).2
        = { currentPhase := "understand", completedPhases := [] }
    ∧ phases.head? = some "understand" := by
  refine ⟨?_, rfl, rfl⟩
  show ((handleStartPhase config (handleSkipProblem sys n) "understand" url now).1).logs
      = sys.logs
  rw [handleStartPhase_logs]
  rfl

/-- Firing an alarm whose name differs from the phase named in the
session slot changes neither the log nor the slot. -/
theorem fireAlarm_mismatch_frame (s : SysState) (r : PhaseRecord) (p : String) (t : Int)
    (hs : s.currentPhase = some r) (hne : ¬ r.phase = p) :
    (fireAlarm s p t).logs = s.logs ∧ (fireAlarm s p t).currentPhase = s.currentPhase := by
  cases hfa : s.alarms.find? (fun a => a.1 == p) with
  | none =>
      rw [fireAlarm_of_not_pending s p t hfa]
      exact ⟨rfl, rfl⟩
  | some x =>
      rw [fireAlarm_of_pending_any s p t x hfa]
      unfold onAlarm
      by_cases hpq : p = "quizReminderCheck"
      · rw [if_pos hpq]
        exact ⟨rfl, rfl⟩
      · rw [if_neg hpq]
        rw [handlePhaseTimeout_of_mismatch
          { s with alarms := alarmsClear s.alarms p } r p t hs hne]
        exact ⟨rfl, rfl⟩

/-- C8 counterexample: skipping while problem pA is mid implement phase
leaves the implement alarm pending in the alarm table; switching
subjects does not cancel the abandoned callback. -/
theorem skip_does_not_cancel_counterexample :
    ((uiSkipProblem stdConfig c8State 3 "pB" 1000).1).alarms.find?
        (fun a => a.1 == "implement") = some ("implement", 900000) := by
  decide

/-- C8 amended: skipping to a new problem does not cancel the abandoned
phase's pending alarm; instead, because the session slot now names the
understand phase of the new problem, the abandoned alarm fires without
appending any record or touching the slot; and clearing an alarm that
is already gone is not an error (stopPhaseTimer just reports false). -/
theorem skip_leaves_alarm_timeout_ignored (config : Config) (sys : SysState) (n : Nat)
    (urlB : String) (now t : Int) (p : String) (x : String × Int) (d : Int)
    (A : List (String × Int))
    (ha : sys.alarms.find? (fun a => a.1 == p) = some x)
    (hd : lookupDuration config "understand" = some d) (hd0 : d ≠ 0)
    (hpu : ¬ p = "understand") :
    ((uiSkipProblem config sys n urlB now).1).alarms.find? (fun a => a.1 == p) = some x
    ∧ (fireAlarm ((uiSkipProblem config sys n urlB now).1) p t).logs
        = ((uiSkipProblem config sys n urlB now).1).logs
    ∧ (fireAlarm ((uiSkipProblem config sys n urlB now).1) p t).currentPhase
        = ((uiSkipProblem config sys n urlB now).1).currentPhase
    ∧ stopPhaseTimer (alarmsClear A p) p = (alarmsClear A p, false) := by
  have hpu2 : ¬ ("understand" : String) = p := fun hh => hpu hh.symm
  have hs1 : (uiSkipProblem config sys n urlB now).1
      = { alarms := ("understand", now + d * 1000) :: alarmsClear sys.alarms "understand",
          currentPhase := some { problemUrl := urlB, phase := "understand", startTime := now },
          logs := sys.logs, currentIndex := (sys.currentIndex + 1) % n } := by
    show (handleStartPhase config (handleSkipProblem sys n) "understand" urlB now).1 = _
    rw [handleStartPhase_of_some config (handleSkipProblem sys n) "understand" urlB d now hd hd0]
    rfl
  have hfind : ((uiSkipProblem config sys n urlB now).1).alarms.find?
      (fun a => a.1 == p) = some x := by
    rw [hs1]
    show (("understand", now + d * 1000)
        :: alarmsClear sys.alarms "understand").find? (fun a => a.1 == p) = some x
    rw [List.find?_cons_of_neg _ (by simp [hpu2])]
    rw [find?_alarmsClear_ne sys.alarms p "understand" hpu]
    exact ha
  have hsl : ((uiSkipProblem config sys n urlB now).1).currentPhase
      = some { problemUrl := urlB, phase := "understand", startTime := now } := by
    rw [hs1]
  have hframe := fireAlarm_mismatch_frame ((uiSkipProblem config sys n urlB now).1)
    { problemUrl := urlB, phase := "understand", startTime := now } p t hsl hpu2
  refine ⟨hfind, hframe.1, hframe.2, ?_⟩
  simp [stopPhaseTimer, alarmsClear_alarmsClear, find?_alarmsClear_self]

/-- Witness for C8 amended: the pending implement alarm of skipped
problem pA survives the switch to pB, and its later firing leaves the
log and slot of the new problem untouched. -/
theorem skip_leaves_alarm_timeout_ignored_witness :
    ((uiSkipProblem stdConfig c8State 3 "pB" 1000).1).alarms.find?
        (fun a => a.1 == "implement") = some ("implement", 900000)
    ∧ (fireAlarm ((uiSkipProblem stdConfig c8State 3 "pB" 1000).1) "implement" 950000).logs
        = ((uiSkipProblem stdConfig c8State 3 "pB" 1000).1).logs
    ∧ (fireAlarm ((uiSkipProblem stdConfig c8State 3 "pB" 1000).1)
        "implement" 950000).currentPhase
        = ((uiSkipProblem stdConfig c8State 3 "pB" 1000).1).currentPhase
    ∧ stopPhaseTimer (alarmsClear [("implement", 900000)] "implement") "implement"
        = (alarmsClear [("implement", 900000)] "implement", false) :=
  skip_leaves_alarm_timeout_ignored stdConfig c8State 3 "pB" 1000 950000 "implement"
    ("implement", 900000) 300 [("implement", 900000)]
    (by decide) (by decide) (by decide) (by decide)

/-- C9 counterexample: a negative configured duration (-5 s) passes the
JS truthiness check, so START_PHASE succeeds, registers an alarm
scheduled in the past, and creates the active interval, instead of
failing with InvalidDuration. -/
theorem negative_duration_accepted_counterexample :
    (handleStartPhase negConfig idleState "understand" "p" 0).2
        = StartResult.ok "understand" (-5) 0
    ∧ ((handleStartPhase negConfig idleState "understand" "p" 0).1).alarms
        = [("understand", -5000)]
    ∧ ((handleStartPhase negConfig idleState "understand" "p" 0).1).currentPhase
        = some { problemUrl := "p", phase := "understand", startTime := 0 } := by
  exact ⟨by decide, by decide, by decide⟩

/-- C9 amended: a zero (or missing) configured duration is falsy and
makes the start fail with the invalid-phase error, registering no
alarm and creating no active interval; a negative duration however is
accepted: the alarm and the active interval are created. -/
theorem start_duration_validation (config : Config) (s : SysState) (phase url : String)
    (now : Int) :
    (lookupDuration config phase = some 0 →
      handleStartPhase config s phase url now
        = (s, StartResult.error ("Invalid phase: " ++ phase)))
    ∧ (lookupDuration config phase = none →
      handleStartPhase config s phase url now
        = (s, StartResult.error ("Invalid phase: " ++ phase)))
    ∧ (∀ d : Int, lookupDuration config phase = some d → d < 0 →
      (handleStartPhase config s phase url now).2 = StartResult.ok phase d now
      ∧ ((handleStartPhase config s phase url now).1).alarms
          = (phase, now + d * 1000) :: alarmsClear s.alarms phase
      ∧ ((handleStartPhase config s phase url now).1).currentPhase
          = some { problemUrl := url, phase := phase, startTime := now }) := by
  refine ⟨fun hd => handleStartPhase_of_zero config s phase url now hd,
          fun hd => handleStartPhase_of_none config s phase url now hd,
          fun d hd hdneg => ?_⟩
  rw [handleStartPhase_of_some config s phase url d now hd (by omega)]
  exact ⟨rfl, rfl, rfl⟩

/-- Witness for C9 amended: duration 0 is rejected with no state
change; duration -5 is accepted, creating the alarm and the interval. -/
theorem start_duration_validation_witness :
    (handleStartPhase zeroConfig idleState "understand" "p" 0
        = (idleState, StartResult.error ("Invalid phase: " ++ "understand")))
    ∧ ((handleStartPhase negConfig idleState "understand" "p" 0).2
        = StartResult.ok "understand" (-5) 0
      ∧ ((handleStartPhase negConfig idleState "understand" "p" 0).1).alarms
          = ("understand", (0 : Int) + (-5) * 1000) :: alarmsClear idleState.alarms "understand"
      ∧ ((handleStartPhase negConfig idleState "understand" "p" 0).1).currentPhase
          = some { problemUrl := "p", phase := "understand", startTime := 0 }) :=
  ⟨(start_duration_validation zeroConfig idleState "understand" "p" 0).1 (by decide),
   (start_duration_validation negConfig idleState "understand" "p" 0).2.2 (-5)
     (by decide) (by decide)⟩

/-! ### Aggregation lemmas -/

theorem phaseListLookup_addToPhases (pl : List (String × List LogEntry)) (l : LogEntry)
    (phase : String) :
    phaseListLookup (addToPhases pl l) phase
      = phaseListLookup pl phase ++ (if l.phase == phase then [l] else []) := by
  induction pl with
  | nil =>
      by_cases hb : l.phase = phase
      · simp [addToPhases, phaseListLookup, hb]
      · simp [addToPhases, phaseListLookup, hb]
  | cons x rest ih =>
      obtain ⟨q, ls⟩ := x
      by_cases hql : q = l.phase
      · by_cases hqp : q = phase
        · have hlp : l.phase = phase := by rw [← hql, hqp]
          simp [addToPhases, phaseListLookup, hql, hqp, hlp]
        · have hlp : ¬ l.phase = phase := by rw [← hql]; exact hqp
          simp [addToPhases, phaseListLookup, hql, hqp, hlp]
      · by_cases hqp : q = phase
        · have hlp : ¬ l.phase = phase := fun hh => hql (hqp.trans hh.symm)
          have hql2 : ¬ phase = l.phase := fun hh => hlp hh.symm
          simp [addToPhases, phaseListLookup, hql, hqp, hlp, hql2]
        · simp only [phaseListLookup] at ih
          simp [addToPhases, phaseListLookup, hql, hqp, ih]

theorem lookupPhaseLogs_addLog (m : List ProblemAgg) (l : LogEntry) (url phase : String) :
    lookupPhaseLogs (addLog m l) url phase
      = lookupPhaseLogs m url phase
        ++ (if l.problemUrl == url && l.phase == phase then [l] else []) := by
  induction m with
  | nil =>
      by_cases hu : l.problemUrl = url
      · by_cases hp2 : l.phase = phase
        · simp [addLog, lookupPhaseLogs, phaseListLookup, hu, hp2]
        · simp [addLog, lookupPhaseLogs, phaseListLookup, hu, hp2]
      · simp [addLog, lookupPhaseLogs, hu]
  | cons p rest ih =>
      by_cases hpm : p.url = l.problemUrl
      · by_cases hu : p.url = url
        · have hu2 : l.problemUrl = url := hpm.symm.trans hu
          simp [addLog, lookupPhaseLogs, hpm, hu, hu2, phaseListLookup_addToPhases]
        · have hu2 : ¬ l.problemUrl = url := by rw [← hpm]; exact hu
          simp [addLog, lookupPhaseLogs, hpm, hu, hu2]
      · by_cases hu : p.url = url
        · have hu2 : ¬ l.problemUrl = url := fun hh => hpm (hu.trans hh.symm)
          have hu3 : ¬ url = l.problemUrl := fun hh => hu2 hh.symm
          simp [addLog, lookupPhaseLogs, hpm, hu, hu2, hu3]
        · simp only [lookupPhaseLogs] at ih
          simp [addLog, lookupPhaseLogs, hpm, hu, ih]

theorem lookupPhaseLogs_foldl (url phase : String) :
    ∀ (logs : List LogEntry) (acc : List ProblemAgg),
      lookupPhaseLogs (List.foldl addLog acc logs) url phase
        = lookupPhaseLogs acc url phase
          ++ logs.filter (fun l => l.problemUrl == url && l.phase == phase) := by
  intro logs
  induction logs with
  | nil => intro acc; simp
  | cons l rest ih =>
      intro acc
      rw [List.foldl_cons, ih (addLog acc l), lookupPhaseLogs_addLog]
      by_cases hc : (l.problemUrl == url && l.phase == phase) = true
      · simp [List.filter_cons, hc]
      · simp [List.filter_cons, hc]

theorem totalDuration_eq_sum (entries : List LogEntry) :
    totalDuration entries = (entries.map (fun l => l.duration)).sum := by
  have h : ∀ (es : List LogEntry) (a : Rat),
      List.foldl (fun sum l => sum + l.duration) a es
        = a + (es.map (fun l => l.duration)).sum := by
    intro es
    induction es with
    | nil => intro a; simp
    | cons e rest ih => intro a; simp [List.foldl_cons, ih, add_assoc]
  simpa [totalDuration] using h entries 0

/-- C10: the weekly-report aggregation is a pure fold over the history
log: the records grouped under a subject and phase are exactly that
subject and phase's log records in log order, and the reported total
duration is the sum of their durations (summed, never overwritten),
however many records the pair has.  Being a pure function of the log
contents, evaluating it twice on an unchanged log gives the same
output by definitional purity of the embedding. -/
theorem aggregation_sums_durations (logs : List LogEntry) (url phase : String) :
    lookupPhaseLogs (buildProblemMap logs) url phase
        = logs.filter (fun l => l.problemUrl == url && l.phase == phase)
    ∧ aggregateBySubject logs url phase
        = ((logs.filter (fun l => l.problemUrl == url && l.phase == phase)).map
            (fun l => l.duration)).sum := by
  have h1 : lookupPhaseLogs (buildProblemMap logs) url phase
      = logs.filter (fun l => l.problemUrl == url && l.phase == phase) := by
    have h := lookupPhaseLogs_foldl url phase logs []
    simpa [buildProblemMap, lookupPhaseLogs] using h
  refine ⟨h1, ?_⟩
  rw [aggregateBySubject, h1, totalDuration_eq_sum]

end Tutor
